import Mathlib

/-!
Verification of the MapSCII tile pipeline core against its specification.

Shallow embedding of the tile cache (TileSource.ts), the decode/style/index
pipeline (Tile.ts), the label collision index (LabelBuffer.ts) and the
character raster buffer (BrailleBuffer), with theorems settling the spec's
claims about caching, byte routing, label placement, glyph lookup tables,
bounding boxes, color/label resolution, gzip detection and clipping.
-/

set_option maxHeartbeats 1000000

namespace Mapscii

/-! ## Tile decode: gzip detection (Tile._isGzipped / Tile._unzipIfNeeded) -/

/-- Node `Buffer.indexOf` semantics on byte lists: the byte offset of the first
occurrence of `needle` inside `hay`, or `-1` when it does not occur (an empty
needle occurs at offset 0). -/
def bufIndexOf (hay needle : List Nat) : Int :=
  if needle.isPrefixOf hay then 0
  else
    match hay with
    | [] => -1
    | _ :: t =>
      let r := bufIndexOf t needle
      if r = -1 then -1 else r + 1

/-- Tile._isGzipped: `buffer.slice(0, 2).indexOf(Buffer.from([0x1f, 0x8b])) === 0`. -/
def isGzipped (b : List Nat) : Bool :=
  bufIndexOf (b.take 2) [0x1f, 0x8b] == 0

/-- Tile._unzipIfNeeded: gunzip the payload when the gzip magic is detected,
otherwise hand the payload through unchanged.  The gunzip transform itself is
an I/O suspension and is abstracted as a function parameter. -/
def unzipIfNeeded (gunzip : List Nat → List Nat) (b : List Nat) : List Nat :=
  if isGzipped b then gunzip b else b

theorem isGzipped_cons (a c : Nat) (rest : List Nat) :
    isGzipped (a :: c :: rest) = (decide (a = 0x1f) && decide (c = 0x8b)) := by
  by_cases ha : a = 0x1f
  · by_cases hc : c = 0x8b
    · subst ha; subst hc; rfl
    · subst ha
      have hc' : ¬((0x8b : Nat) = c) := fun h => hc h.symm
      simp [isGzipped, bufIndexOf, List.isPrefixOf, hc, hc']
  · have ha' : ¬((0x1f : Nat) = a) := fun h => ha h.symm
    simp [isGzipped, bufIndexOf, List.isPrefixOf, ha, ha']

theorem isGzipped_iff (b : List Nat) :
    isGzipped b = true ↔ ∃ rest, b = 0x1f :: 0x8b :: rest := by
  rcases b with _ | ⟨a, _ | ⟨c, rest⟩⟩
  · simp [isGzipped, bufIndexOf, List.isPrefixOf]
  · simp [isGzipped, bufIndexOf, List.isPrefixOf]
  · rw [isGzipped_cons]
    constructor
    · intro h
      simp only [Bool.and_eq_true, decide_eq_true_eq] at h
      exact ⟨rest, by rw [h.1, h.2]⟩
    · rintro ⟨rest', h⟩
      injection h with h1 h2
      injection h2 with h2 _
      subst h1; subst h2
      simp

/-- C8: a payload is decompressed before parsing iff its first two bytes are
the gzip magic `0x1f 0x8b`; a payload without that prefix is parsed as-is with
no decompression attempted. -/
theorem gzip_detection (gunzip : List Nat → List Nat) (b : List Nat) :
    (isGzipped b = true ↔ ∃ rest, b = 0x1f :: 0x8b :: rest) ∧
    (isGzipped b = false → unzipIfNeeded gunzip b = b) ∧
    (isGzipped b = true → unzipIfNeeded gunzip b = gunzip b) := by
  refine ⟨isGzipped_iff b, ?_, ?_⟩
  · intro h; simp [unzipIfNeeded, h]
  · intro h; simp [unzipIfNeeded, h]

/-- C8 witness: concrete gzip-prefixed and plain payloads behave as stated. -/
theorem gzip_detection_witness :
    unzipIfNeeded (fun l => 9 :: l) [0x1f, 0x8b, 7] = 9 :: [0x1f, 0x8b, 7] :=
  (gzip_detection (fun l => 9 :: l) [0x1f, 0x8b, 7]).2.2 (by decide)

/-! ## TileSource._getHTTP: which byte payload reaches the decoder

The promise chain in `_getHTTP` resolves to the value handed to
`_createTile(z, x, y, buffer)`.  `undefined` is modelled as `none`. -/

/-- Continuation of `fetch(...).then((res) => res.buffer())`: the callback
`(buffer) => { if (config.persistDownloadedTiles) { this._persistTile(...);
return buffer; } }` returns the buffer only inside the `if` branch, and
`undefined` (here `none`) otherwise. -/
def fetchThen (persistEnabled : Bool) (fetched : List Nat) : Option (List Nat) :=
  if persistEnabled then some fetched else none

/-- TileSource._getHTTP: if persistence is on and `_getPersited` found a file,
its bytes resolve the promise; otherwise the network fetch result flows
through `fetchThen`.  The result is the value passed on to `_createTile`. -/
def getHTTPBuffer (persistEnabled : Bool) (persisted : Option (List Nat))
    (fetched : List Nat) : Option (List Nat) :=
  if persistEnabled && persisted.isSome then persisted
  else fetchThen persistEnabled fetched

/-- C2: with persistence enabled the persisted or fetched bytes reach the
decoder as claimed, but with persistence disabled the then-callback of the
fetch falls through without returning, so `undefined` — not the fetched
response bytes — is what reaches `_createTile`/decode. -/
theorem http_buffer_routing :
    getHTTPBuffer true (some [9]) [1, 2, 3] = some [9] ∧
    getHTTPBuffer true none [1, 2, 3] = some [1, 2, 3] ∧
    getHTTPBuffer false none [1, 2, 3] = none ∧
    getHTTPBuffer false (some [9]) [1, 2, 3] = none := by
  decide

/-! ## TileSource cache (getTile / _createTile)

The JS object `this.cache` is modelled as an association list with
overwrite-on-assign and delete; `this.cached` is the insertion-order list of
keys.  Tiles are abstracted as numeric identifiers. -/

/-- Lookup in the JS object `this.cache` (truthy check on `cache[key]`). -/
def cacheLookup (k : String) : List (String × Nat) → Option Nat
  | [] => none
  | (k', v) :: t => if k' = k then some v else cacheLookup k t

/-- Property assignment `cache[key] = tile` on a JS object: overwrite in place
when the key exists, otherwise append. -/
def cacheSet (k : String) (v : Nat) : List (String × Nat) → List (String × Nat)
  | [] => [(k, v)]
  | (k', v') :: t => if k' = k then (k, v) :: t else (k', v') :: cacheSet k v t

/-- Property removal `delete cache[key]` on a JS object. -/
def cacheDelete (k : String) (c : List (String × Nat)) : List (String × Nat) :=
  c.filter (fun e => e.1 ≠ k)

/-- TileSource cache state: key → tile mapping, the configured bound, and the
insertion-order key list. -/
structure TSState where
  cache : List (String × Nat)
  cacheSize : Nat
  cached : List String
  deriving Repr, DecidableEq

/-- TileSource.init cache fields: empty cache, bound 16, empty order list. -/
def tsInit : TSState := ⟨[], 16, []⟩

/-- Cache key `[z, x, y].join('-')`. -/
def keyOf (z x y : Nat) : String :=
  toString z ++ "-" ++ toString x ++ "-" ++ toString y

/-- The eviction pass at the start of a `getTile` cache miss:
`if (this.cached.length > this.cacheSize)` compute
`overflow = Math.abs(this.cacheSize - this.cached.length)`, splice the first
`overflow` names out of `this.cached`, and run
`for (const tile in <spliced array>) delete this.cache[tile]` — a `for…in`
loop over an array, whose iteration variable takes the array's index strings
"0", "1", …, not the spliced key names. -/
def evictionPass (st : TSState) : TSState :=
  if st.cached.length > st.cacheSize then
    let overflow := ((st.cacheSize : Int) - (st.cached.length : Int)).natAbs
    { st with
      cached := st.cached.drop overflow,
      cache := (List.range overflow).foldl (fun c i => cacheDelete (toString i) c) st.cache }
  else st

/-- TileSource._createTile: push the key onto the insertion-order list and
store the freshly loaded tile in the cache under its key. -/
def createTile (st : TSState) (key : String) (tile : Nat) : TSState :=
  { st with cached := st.cached ++ [key], cache := cacheSet key tile st.cache }

/-- TileSource.getTile: exact-key cache hit returns the cached tile with no
eviction check; a miss runs the eviction pass and then creates and caches a
fresh tile (`fresh` abstracts the decoded Tile produced by the backend). -/
def getTile (st : TSState) (z x y : Nat) (fresh : Nat) : TSState × Nat :=
  let key := keyOf z x y
  match cacheLookup key st.cache with
  | some t => (st, t)
  | none => (createTile (evictionPass st) key fresh, fresh)

/-- Run `n` cache misses: `getTile i 0 0` for `i = 0, …, n-1`, each loading a
tile whose identifier is its index. -/
def runMisses (n : Nat) : TSState :=
  (List.range n).foldl (fun st i => (getTile st i 0 0 i).1) tsInit

/-- C1: after 18 misses with bound 16, the key of the first miss has been
spliced out of the insertion-order list, yet the cache still holds all 18
entries and an exact-match `getTile` for the "evicted" key is a hit returning
the originally cached tile — the `for…in` loop deletes `cache["0"]`,
`cache["1"]`, … (array index strings) instead of the spliced key names. -/
theorem cache_eviction_code_eval :
    (runMisses 18).cache.length = 18 ∧
    (runMisses 18).cached.length = 17 ∧
    keyOf 0 0 0 ∉ (runMisses 18).cached ∧
    cacheLookup (keyOf 0 0 0) (runMisses 18).cache = some 0 ∧
    (getTile (runMisses 18) 0 0 0 99).2 = 0 ∧
    (getTile (runMisses 18) 0 0 0 99).1 = runMisses 18 := by
  decide

/-! ## BrailleBuffer (RasterBuffer): canvas state, clipping and cell indices -/

/-- RasterBuffer state: `width × height` sub-cell pixels, three parallel byte
buffers addressed by cell index (modelled as functions into bytes), and the
sparse glyph overlay `charBuffer`. -/
structure BBState where
  width : Nat
  height : Nat
  pixelBuffer : Nat → Nat
  foregroundBuffer : Nat → Nat
  backgroundBuffer : Nat → Nat
  charBuffer : Nat → Option String

/-- Byte-buffer store `buf[i] = v` (Node Buffers truncate writes to a byte). -/
def bufWrite (f : Nat → Nat) (i v : Nat) : Nat → Nat :=
  fun j => if j = i then v % 256 else f j

/-- Glyph-overlay store `charBuffer[i] = s`. -/
def charWrite (f : Nat → Option String) (i : Nat) (s : String) : Nat → Option String :=
  fun j => if j = i then some s else f j

/-- The bounds guard `0 <= x && x < this.width && 0 <= y && y < this.height`
shared by `_locate`, `setChar` and `setBackground`. -/
def inBounds (st : BBState) (x y : Int) : Bool :=
  decide (0 ≤ x) && decide (x < (st.width : Int)) &&
  decide (0 ≤ y) && decide (y < (st.height : Int))

/-- BrailleBuffer._project: cell index `(x>>1) + (width>>1)*(y>>2)` (for the
in-bounds, hence non-negative, coordinates on which it is invoked). -/
def bbProject (width x y : Nat) : Nat :=
  x / 2 + (width / 2) * (y / 4)

/-- The 2×4 dot-position table `brailleMap`. -/
def brailleMap : List (List Nat) :=
  [[0x1, 0x8], [0x2, 0x10], [0x4, 0x20], [0x40, 0x80]]

/-- Dot bitmask `brailleMap[y & 3][x & 1]` used by `_locate`. -/
def brailleMask (x y : Nat) : Nat :=
  (brailleMap.getD (y % 4) []).getD (x % 2) 0

/-- BrailleBuffer.setPixel via `_locate`: silently ignored out of bounds,
otherwise ors the dot mask into the cell's pixel byte and records the color
as the cell's foreground. -/
def setPixel (st : BBState) (x y : Int) (color : Nat) : BBState :=
  if inBounds st x y then
    let idx := bbProject st.width x.toNat y.toNat
    { st with
      pixelBuffer := bufWrite st.pixelBuffer idx
        (st.pixelBuffer idx ||| brailleMask x.toNat y.toNat),
      foregroundBuffer := bufWrite st.foregroundBuffer idx color }
  else st

/-- BrailleBuffer.unsetPixel via `_locate`: clears the dot's bit
(`pixelBuffer[idx] &= ~mask`, truncated to a byte). -/
def unsetPixel (st : BBState) (x y : Int) : BBState :=
  if inBounds st x y then
    let idx := bbProject st.width x.toNat y.toNat
    { st with
      pixelBuffer := bufWrite st.pixelBuffer idx
        (st.pixelBuffer idx &&& (255 ^^^ brailleMask x.toNat y.toNat)) }
  else st

/-- BrailleBuffer.setChar: guarded by the same bounds check; stores the glyph
and its color at the cell index. -/
def setChar (st : BBState) (ch : String) (x y : Int) (color : Nat) : BBState :=
  if inBounds st x y then
    let idx := bbProject st.width x.toNat y.toNat
    { st with
      charBuffer := charWrite st.charBuffer idx ch,
      foregroundBuffer := bufWrite st.foregroundBuffer idx color }
  else st

/-- BrailleBuffer.setBackground: guarded store of the cell's background. -/
def setBackground (st : BBState) (x y : Int) (color : Nat) : BBState :=
  if inBounds st x y then
    let idx := bbProject st.width x.toNat y.toNat
    { st with backgroundBuffer := bufWrite st.backgroundBuffer idx color }
  else st

theorem bbProject_lt (w h u v : Nat) (hw : 2 ∣ w) (hh : 4 ∣ h)
    (hu : u < w) (hv : v < h) : bbProject w u v < w * h / 8 := by
  obtain ⟨a, rfl⟩ := hw
  obtain ⟨b, rfl⟩ := hh
  have ha : u / 2 < a := by omega
  have hb0 : 0 < b := by omega
  obtain ⟨c, rfl⟩ : ∃ c, b = c + 1 := ⟨b - 1, by omega⟩
  have h1 : 2 * a * (4 * (c + 1)) / 8 = a * (c + 1) := by
    have h2 : 2 * a * (4 * (c + 1)) = 8 * (a * (c + 1)) := by ring
    rw [h2, Nat.mul_div_cancel_left _ (by norm_num)]
  rw [bbProject, h1]
  have h3 : 2 * a / 2 = a := by omega
  rw [h3, Nat.mul_succ]
  have h4 : v / 4 ≤ c := by omega
  have h5 : a * (v / 4) ≤ a * c := Nat.mul_le_mul (Nat.le_refl a) h4
  omega

/-- C9: out-of-bounds draw calls (`setPixel`, `unsetPixel`, `setChar`,
`setBackground`) leave the whole buffer state unchanged (silent clipping),
and for in-bounds coordinates the computed cell index
`(x>>1) + (width>>1)*(y>>2)` lies in `[0, width*height/8)` (widths divisible
by 2, heights by 4, per the RasterBuffer contract). -/
theorem draw_clipping_and_index_bound (st : BBState) (x y : Int) (c : Nat)
    (ch : String) (hw : 2 ∣ st.width) (hh : 4 ∣ st.height) :
    (inBounds st x y = false →
      setPixel st x y c = st ∧ unsetPixel st x y = st ∧
      setChar st ch x y c = st ∧ setBackground st x y c = st) ∧
    (inBounds st x y = true →
      bbProject st.width x.toNat y.toNat < st.width * st.height / 8) := by
  constructor
  · intro h
    refine ⟨?_, ?_, ?_, ?_⟩ <;>
      simp [setPixel, unsetPixel, setChar, setBackground, h]
  · intro h
    simp only [inBounds, Bool.and_eq_true, decide_eq_true_eq] at h
    obtain ⟨⟨⟨hx0, hxw⟩, hy0⟩, hyh⟩ := h
    exact bbProject_lt st.width st.height x.toNat y.toNat hw hh
      (by omega) (by omega)

/-- Concrete 4×4 canvas with zeroed buffers, for witnesses. -/
def bbTest : BBState :=
  ⟨4, 4, fun _ => 0, fun _ => 0, fun _ => 0, fun _ => none⟩

/-- C9 witness: on a 4×4 canvas the draw calls at (-1, 2) are no-ops and the
cell index of (3, 1) is below 4*4/8 = 2. -/
theorem draw_clipping_and_index_bound_witness :
    (setPixel bbTest (-1) 2 7 = bbTest ∧ unsetPixel bbTest (-1) 2 = bbTest ∧
      setChar bbTest "x" (-1) 2 7 = bbTest ∧ setBackground bbTest (-1) 2 7 = bbTest) ∧
    bbProject bbTest.width (Int.toNat 3) (Int.toNat 1) < bbTest.width * bbTest.height / 8 :=
  ⟨(draw_clipping_and_index_bound bbTest (-1) 2 7 "x" (by decide) (by decide)).1 (by decide),
   (draw_clipping_and_index_bound bbTest 3 1 7 "x" (by decide) (by decide)).2 (by decide)⟩

/-! ## BrailleBuffer._mapBraille: the ASCII fallback glyph table -/

/-- The candidate glyph set `asciiMap`, in declaration order, each glyph with
its list of coverage-bitmask variants. -/
def asciiMapChars : List (String × List Nat) :=
  [("▀", [1+2+16+32]),
   ("▄", [4+8+64+128]),
   ("■", [2+4+32+64]),
   ("▌", [1+2+4+8]),
   ("▐", [16+32+64+128]),
   ("█", [255])]

/-- The flattened `masks` array built by `_mapBraille`: one `(char, mask)`
entry per coverage-bitmask variant, in declaration order. -/
def glyphMasks : List (String × Nat) :=
  asciiMapChars.foldl (fun acc p => acc ++ p.2.map (fun m => (p.1, m))) []

/-- Structural-fuel popcount helper. -/
def popAux : Nat → Nat → Nat
  | 0, _ => 0
  | fuel + 1, n => if n = 0 then 0 else n % 2 + popAux fuel (n / 2)

/-- Modelled from the spec: `utils.population` (utils.ts is not under src/) —
the "popcount" scoring the overlap `candidateMask & targetMask`. -/
def population (n : Nat) : Nat := popAux n n

/-- The bit reordering `(i & 7) + ((i & 56) << 1) + ((i & 64) >> 3) + (i & 128)`
applied to the pixel mask before matching it against the candidate masks. -/
def brailleOf (i : Nat) : Nat :=
  (i &&& 7) + ((i &&& 56) <<< 1) + ((i &&& 64) >>> 3) + (i &&& 128)

/-- Accumulator of the `masks.reduce` call: glyph, its mask, and the `covered`
score field. -/
structure BestMask where
  char : String
  mask : Nat
  covered : Nat

/-- One step of the `reduce` callback: score the candidate against the target
and replace the accumulator iff it scores strictly higher. -/
def reduceStep (target : Nat) (best : BestMask) (m : String × Nat) : BestMask :=
  let covered := population (m.2 &&& target)
  if best.covered < covered then ⟨m.1, m.2, covered⟩ else best

/-- BrailleBuffer._mapBraille table entry for pixel mask `i`: `masks.reduce`
WITHOUT an initial value, so the accumulator starts as `masks[0]` whose
`covered` field is the 0 it was constructed with — the first candidate's real
score is never computed. -/
def chooseChar (i : Nat) : String :=
  match glyphMasks with
  | [] => " "
  | m0 :: rest => (rest.foldl (reduceStep (brailleOf i)) ⟨m0.1, m0.2, 0⟩).char

/-- Selection rule in the spec's words, for comparison: over all enumerated
coverage-bitmask variants pick the one of maximal popcount overlap with the
target, ties broken in favor of the earlier variant in declaration order
(same fold, but the first candidate enters with its real score). -/
def argmaxGlyph (target : Nat) : String :=
  match glyphMasks with
  | [] => " "
  | m0 :: rest =>
    (rest.foldl (reduceStep target) ⟨m0.1, m0.2, population (m0.2 &&& target)⟩).char

/-- The spec's claimed table entry for pixel mask `i` (overlap taken in the
code's aligned bit numbering). -/
def specChooseChar (i : Nat) : String := argmaxGlyph (brailleOf i)

/-- The precomputed table `asciiToBraille` (entry 0 is the blank glyph). -/
def asciiToBraille (i : Nat) : String :=
  if i = 0 then " " else chooseChar i

/-- C4: at pixel mask 9 the spec's argmax rule selects "▀" (overlap 2, earliest
declared; even reading the claim without the bit reordering it selects "▌"),
but the code's table holds "█": `reduce` without an initial value leaves the
first candidate's `covered` at 0, so "▀" never wins — it appears nowhere in
the 255 computed entries. -/
theorem ascii_table_code_eval :
    chooseChar 9 = "█" ∧
    specChooseChar 9 = "▀" ∧
    argmaxGlyph 9 = "▌" ∧
    asciiToBraille 9 = "█" ∧
    ((List.range 256).filter (fun i => asciiToBraille i == "▀")).length = 0 := by
  decide

/-! ## Tile._loadLayers: color resolution, label resolution, bounding boxes -/

/-- A paint value: a plain scalar (hex color string) or a stops structure. -/
inductive ColorValue where
  | scalar (s : String)
  | stops (l : List (Int × String))
  deriving Repr, DecidableEq

/-- The paint mapping of a style descriptor at the three keys the code reads. -/
structure Paint where
  lineColor : Option ColorValue
  fillColor : Option ColorValue
  textColor : Option ColorValue
  deriving Repr, DecidableEq

/-- JS truthiness of a paint lookup: `undefined` and the empty string are
falsy; a stops object is always truthy. -/
def cvTruthy : Option ColorValue → Bool
  | none => false
  | some (.scalar s) => !(s == "")
  | some (.stops _) => true

/-- The fallback chain
`style.paint['line-color'] || style.paint['fill-color'] || style.paint['text-color']`
(the last operand is returned as-is even when falsy). -/
def resolveRawColor (p : Paint) : Option ColorValue :=
  if cvTruthy p.lineColor then p.lineColor
  else if cvTruthy p.fillColor then p.fillColor
  else p.textColor

/-- `if (color instanceof Object) color = color.stops[0][1]`: a stops
structure resolves to its first stop's color value; no zoom is consulted.
(An empty stops list would throw in the source; it is modelled as `none`.) -/
def resolveColor (p : Paint) : Option String :=
  match resolveRawColor p with
  | some (.scalar s) => some s
  | some (.stops ((_, c) :: _)) => some c
  | some (.stops []) => none
  | none => none

/-- Property lookup on `feature.properties`. -/
def lookupProp (props : List (String × String)) (k : String) : Option String :=
  match props with
  | [] => none
  | (k', v) :: t => if k' = k then some v else lookupProp t k

/-- JS truthiness of a property lookup (`undefined` and "" are falsy). -/
def propTruthy : Option String → Bool
  | none => false
  | some s => !(s == "")

/-- JS `a || b` on property lookups. -/
def jsOr (a b : Option String) : Option String :=
  if propTruthy a then a else b

/-- Label resolution in Tile._loadLayers: only for style type "symbol", via
`properties['name_' + config.language] || properties.name_en ||
properties.name || properties.house_num`, otherwise `void 0`. -/
def resolveLabel (styleType : String) (language : String)
    (props : List (String × String)) : Option String :=
  if styleType == "symbol" then
    jsOr (lookupProp props ("name_" ++ language))
      (jsOr (lookupProp props "name_en")
        (jsOr (lookupProp props "name") (lookupProp props "house_num")))
  else none

/-- A tile-local coordinate pair. -/
structure TPoint where
  x : Int
  y : Int
  deriving Repr, DecidableEq

/-- The bounding-box fields written onto a node by `_addBoundaries`. -/
structure Bounds where
  minX : Int
  maxX : Int
  minY : Int
  maxY : Int
  deriving Repr, DecidableEq

/-- The `2e307` / `-2e307` starting values of `_addBoundaries`. -/
def boundsInit : Bounds :=
  ⟨2 * 10 ^ 307, -(2 * 10 ^ 307), 2 * 10 ^ 307, -(2 * 10 ^ 307)⟩

/-- One iteration of the `_addBoundaries` loop: conditional min/max updates. -/
def boundsStep (b : Bounds) (p : TPoint) : Bounds :=
  { minX := if p.x < b.minX then p.x else b.minX,
    maxX := if p.x > b.maxX then p.x else b.maxX,
    minY := if p.y < b.minY then p.y else b.minY,
    maxY := if p.y > b.maxY then p.y else b.maxY }

/-- Geometry as `_addBoundaries` receives it: for a fill node `data.points`
holds all rings and the loop scans `data.points[0]`; otherwise it scans the
node's single ring. -/
inductive GeoPoints where
  | fill (rings : List (List TPoint))
  | line (ring : List TPoint)
  deriving Repr, DecidableEq

/-- The points scanned by the `_addBoundaries` loop. -/
def boundaryPoints : GeoPoints → List TPoint
  | .fill rings => rings.headD []
  | .line ring => ring

/-- Tile._addBoundaries: fold the min/max updates over the scanned points. -/
def addBoundaries (g : GeoPoints) : Bounds :=
  (boundaryPoints g).foldl boundsStep boundsInit

theorem boundsStep_le (b : Bounds) (p : TPoint) :
    (boundsStep b p).minX ≤ b.minX ∧ b.maxX ≤ (boundsStep b p).maxX ∧
    (boundsStep b p).minY ≤ b.minY ∧ b.maxY ≤ (boundsStep b p).maxY := by
  simp only [boundsStep]
  split_ifs <;> simp_all
  all_goals omega

theorem boundsStep_mem (b : Bounds) (p : TPoint) :
    (boundsStep b p).minX ≤ p.x ∧ p.x ≤ (boundsStep b p).maxX ∧
    (boundsStep b p).minY ≤ p.y ∧ p.y ≤ (boundsStep b p).maxY := by
  simp only [boundsStep]
  split_ifs <;> simp_all

theorem bounds_foldl_spec (pts : List TPoint) (b : Bounds) :
    ((pts.foldl boundsStep b).minX ≤ b.minX ∧ b.maxX ≤ (pts.foldl boundsStep b).maxX ∧
     (pts.foldl boundsStep b).minY ≤ b.minY ∧ b.maxY ≤ (pts.foldl boundsStep b).maxY) ∧
    ∀ p ∈ pts,
      (pts.foldl boundsStep b).minX ≤ p.x ∧ p.x ≤ (pts.foldl boundsStep b).maxX ∧
      (pts.foldl boundsStep b).minY ≤ p.y ∧ p.y ≤ (pts.foldl boundsStep b).maxY := by
  induction pts generalizing b with
  | nil => simp
  | cons p t ih =>
    simp only [List.foldl_cons, List.mem_cons]
    obtain ⟨⟨h1, h2, h3, h4⟩, hmem⟩ := ih (boundsStep b p)
    obtain ⟨g1, g2, g3, g4⟩ := boundsStep_le b p
    obtain ⟨m1, m2, m3, m4⟩ := boundsStep_mem b p
    refine ⟨⟨le_trans h1 g1, le_trans g2 h2, le_trans h3 g3, le_trans g4 h4⟩, ?_⟩
    intro q hq
    rcases hq with rfl | hq
    · exact ⟨le_trans h1 m1, le_trans m2 h2, le_trans h3 m3, le_trans m4 h4⟩
    · exact hmem q hq

/-! ## Tile._loadLayers: node construction and the null-styler hazard -/

/-- A decoded feature as `_loadLayers` consumes it: its properties and the
rings returned by `feature.loadGeometry()`. -/
structure Feature where
  properties : List (String × String)
  geometry : List (List TPoint)
  deriving Repr, DecidableEq

/-- A style descriptor `{type, paint}` returned by the Styler collaborator. -/
structure Style where
  type : String
  paint : Paint
  deriving Repr, DecidableEq

/-- A StyledNode as pushed onto a layer's node list. -/
structure StyledNode where
  layer : String
  styleType : String
  label : Option String
  sort : Option String
  color : Option String
  points : GeoPoints
  bounds : Bounds
  deriving Repr, DecidableEq

/-- Node construction for one styled feature: a fill feature yields one node
whose boundaries scan only the outer ring; any other style type yields one
node per geometry ring. -/
def styleFeature (language : String) (layerName : String) (style : Style)
    (f : Feature) : List StyledNode :=
  let color := resolveColor style.paint
  let sort := jsOr (lookupProp f.properties "localrank")
    (lookupProp f.properties "scalerank")
  let label := resolveLabel style.type language f.properties
  if style.type == "fill" then
    [{ layer := layerName, styleType := style.type, label := label,
       sort := sort, color := color, points := .fill f.geometry,
       bounds := addBoundaries (.fill f.geometry) }]
  else
    f.geometry.map (fun ring =>
      { layer := layerName, styleType := style.type, label := label,
        sort := sort, color := color, points := .line ring,
        bounds := addBoundaries (.line ring) })

theorem styleFeature_fields (language layerName : String) (style : Style)
    (f : Feature) (node : StyledNode)
    (h : node ∈ styleFeature language layerName style f) :
    node.layer = layerName ∧ node.styleType = style.type ∧
    node.label = resolveLabel style.type language f.properties ∧
    node.color = resolveColor style.paint ∧
    node.bounds = addBoundaries node.points := by
  by_cases hfill : (style.type == "fill") = true <;>
    simp only [styleFeature, hfill, Bool.false_eq_true, if_true, if_false,
      List.mem_singleton, List.mem_map] at h
  · subst h
    simp
  · obtain ⟨ring, hring, rfl⟩ := h
    simp

/-- C5: every node built by the index builder has a bounding box with
`minX ≤ maxX` and `minY ≤ maxY` (single-point rings included) that contains
every coordinate the code scans — the outer ring for fills, the node's own
ring otherwise (the codec never emits an empty ring, whence the hypothesis). -/
theorem styled_node_bbox (language layerName : String) (style : Style)
    (f : Feature) (node : StyledNode)
    (hnode : node ∈ styleFeature language layerName style f)
    (h : boundaryPoints node.points ≠ []) :
    node.bounds.minX ≤ node.bounds.maxX ∧ node.bounds.minY ≤ node.bounds.maxY ∧
    ∀ p ∈ boundaryPoints node.points,
      node.bounds.minX ≤ p.x ∧ p.x ≤ node.bounds.maxX ∧
      node.bounds.minY ≤ p.y ∧ p.y ≤ node.bounds.maxY := by
  have hb : node.bounds = addBoundaries node.points :=
    (styleFeature_fields language layerName style f node hnode).2.2.2.2
  obtain ⟨q, hq⟩ := List.exists_mem_of_ne_nil _ h
  have hspec := bounds_foldl_spec (boundaryPoints node.points) boundsInit
  have hmem := hspec.2
  rw [hb, addBoundaries]
  obtain ⟨q1, q2, q3, q4⟩ := hmem q hq
  refine ⟨le_trans q1 q2, le_trans q3 q4, ?_⟩
  intro p hp
  exact hmem p hp

/-- Concrete two-point line node for the C5 witness. -/
def nodeW : StyledNode :=
  { layer := "l", styleType := "line", label := none, sort := none,
    color := none, points := .line [⟨3, 4⟩, ⟨1, 2⟩],
    bounds := addBoundaries (.line [⟨3, 4⟩, ⟨1, 2⟩]) }

set_option maxRecDepth 8192 in
/-- C5 witness: the node built for a two-point line ring has a well-formed
bounding box containing both points. -/
theorem styled_node_bbox_witness :
    nodeW.bounds.minX ≤ nodeW.bounds.maxX ∧
    nodeW.bounds.minY ≤ nodeW.bounds.maxY ∧
    ∀ p ∈ boundaryPoints nodeW.points,
      nodeW.bounds.minX ≤ p.x ∧ p.x ≤ nodeW.bounds.maxX ∧
      nodeW.bounds.minY ≤ p.y ∧ p.y ≤ nodeW.bounds.maxY :=
  styled_node_bbox "en" "l" ⟨"line", ⟨none, none, none⟩⟩
    ⟨[], [[⟨3, 4⟩, ⟨1, 2⟩]]⟩ nodeW (by decide) (by decide)

/-- C6: every node of a styled feature carries the color resolved as
line-color, falling back to fill-color, then text-color; a stops structure
resolves to its first stop's value — the resolver takes no zoom input, so the
result is zoom-independent, and the claim's example resolves to "#ff0000". -/
theorem color_resolution (language layerName : String) (style : Style)
    (f : Feature) :
    (∀ node ∈ styleFeature language layerName style f,
      node.color = resolveColor style.paint) ∧
    (cvTruthy style.paint.lineColor = true →
      resolveRawColor style.paint = style.paint.lineColor) ∧
    (cvTruthy style.paint.lineColor = false → cvTruthy style.paint.fillColor = true →
      resolveRawColor style.paint = style.paint.fillColor) ∧
    (cvTruthy style.paint.lineColor = false → cvTruthy style.paint.fillColor = false →
      resolveRawColor style.paint = style.paint.textColor) ∧
    (∀ z c rest, resolveRawColor style.paint = some (.stops ((z, c) :: rest)) →
      resolveColor style.paint = some c) ∧
    resolveColor ⟨some (.stops [((0 : Int), "#ff0000"), (5, "#00ff00")]), none, none⟩
      = some "#ff0000" := by
  refine ⟨?_, ?_, ?_, ?_, ?_, by decide⟩
  · intro node hnode
    exact (styleFeature_fields language layerName style f node hnode).2.2.2.1
  · intro h; simp [resolveRawColor, h]
  · intro h1 h2; simp [resolveRawColor, h1, h2]
  · intro h1 h2; simp [resolveRawColor, h1, h2]
  · intro z c rest h; simp [resolveColor, h]

/-- C6 witness: a paint with a truthy line-color resolves to it past a
present fill-color. -/
theorem color_resolution_witness :
    resolveRawColor ⟨some (.scalar "#abc"), some (.scalar "#def"), none⟩
      = some (.scalar "#abc") :=
  (color_resolution "en" "l" ⟨"line", ⟨some (.scalar "#abc"), some (.scalar "#def"), none⟩⟩
    ⟨[], []⟩).2.1 (by decide)

/-- C7: every node of a styled feature carries the label resolved only for
style type "symbol" via name_<language> → name_en → name → house_num, absent
otherwise; a symbol feature with only `name = "Berlin"` labels "Berlin". -/
theorem label_resolution (language layerName : String) (style : Style)
    (f : Feature) :
    (∀ node ∈ styleFeature language layerName style f,
      node.label = resolveLabel style.type language f.properties) ∧
    (style.type ≠ "symbol" → resolveLabel style.type language f.properties = none) ∧
    (propTruthy (lookupProp f.properties ("name_" ++ language)) = true →
      resolveLabel "symbol" language f.properties
        = lookupProp f.properties ("name_" ++ language)) ∧
    (propTruthy (lookupProp f.properties ("name_" ++ language)) = false →
      propTruthy (lookupProp f.properties "name_en") = true →
      resolveLabel "symbol" language f.properties = lookupProp f.properties "name_en") ∧
    (propTruthy (lookupProp f.properties ("name_" ++ language)) = false →
      propTruthy (lookupProp f.properties "name_en") = false →
      propTruthy (lookupProp f.properties "name") = true →
      resolveLabel "symbol" language f.properties = lookupProp f.properties "name") ∧
    (propTruthy (lookupProp f.properties ("name_" ++ language)) = false →
      propTruthy (lookupProp f.properties "name_en") = false →
      propTruthy (lookupProp f.properties "name") = false →
      resolveLabel "symbol" language f.properties = lookupProp f.properties "house_num") ∧
    resolveLabel "symbol" "en" [("name", "Berlin")] = some "Berlin" := by
  refine ⟨?_, ?_, ?_, ?_, ?_, ?_, by decide⟩
  · intro node hnode
    exact (styleFeature_fields language layerName style f node hnode).2.2.1
  · intro h
    have h' : (style.type == "symbol") = false := by
      simp [h]
    simp [resolveLabel, h']
  · intro h1; simp [resolveLabel, jsOr, h1]
  · intro h1 h2; simp [resolveLabel, jsOr, h1, h2]
  · intro h1 h2 h3; simp [resolveLabel, jsOr, h1, h2, h3]
  · intro h1 h2 h3; simp [resolveLabel, jsOr, h1, h2, h3]

/-- C7 witness: with language "de" and a localized name present, the
localized property wins. -/
theorem label_resolution_witness :
    resolveLabel "symbol" "de" [("name_de", "X"), ("name", "Y")]
      = lookupProp [("name_de", "X"), ("name", "Y")] ("name_" ++ "de") :=
  (label_resolution "de" "l" ⟨"symbol", ⟨none, none, none⟩⟩
    ⟨[("name_de", "X"), ("name", "Y")], []⟩).2.2.1 (by decide)

/-- Processing of one feature inside `_loadLayers`: with no styler set the
unconditional `style.paint[...]` read dereferences `undefined` and throws
(modelled as `Except.error`); with a styler, a null style skips the feature,
otherwise its nodes are built. -/
def processFeature (styler : Option (String → Feature → Option Style))
    (language : String) (layerName : String) (f : Feature) :
    Except String (List StyledNode) :=
  match styler with
  | none => .error "TypeError: style is undefined"
  | some getStyleFor =>
    match getStyleFor layerName f with
    | none => .ok []
    | some style => .ok (styleFeature language layerName style f)

/-- The per-layer feature loop of `_loadLayers`: nodes accumulate in order; a
throw aborts the load. -/
def processLayer (styler : Option (String → Feature → Option Style))
    (language : String) (layerName : String) :
    List Feature → Except String (List StyledNode)
  | [] => .ok []
  | f :: t =>
    match processFeature styler language layerName f with
    | .error e => .error e
    | .ok ns =>
      match processLayer styler language layerName t with
      | .error e => .error e
      | .ok rest => .ok (ns ++ rest)

/-- Tile._loadLayers over all layers: layer name ↦ its styled node list (the
per-layer RBush is bulk-loaded with exactly that list). -/
def loadLayers (styler : Option (String → Feature → Option Style))
    (language : String) :
    List (String × List Feature) → Except String (List (String × List StyledNode))
  | [] => .ok []
  | l :: t =>
    match processLayer styler language l.1 l.2 with
    | .error e => .error e
    | .ok ns =>
      match loadLayers styler language t with
      | .error e => .error e
      | .ok rest => .ok ((l.1, ns) :: rest)

/-- C10: with a null styler, loading a payload with at least one feature in
some layer throws (the style descriptor is dereferenced unconditionally after
the styler check); with a null styler and only empty layers the load
completes. -/
theorem null_styler_throws (language : String)
    (layers : List (String × List Feature)) :
    ((∃ l ∈ layers, l.2 ≠ []) →
      ∃ e, loadLayers none language layers = .error e) ∧
    ((∀ l ∈ layers, l.2 = []) →
      loadLayers none language layers = .ok (layers.map (fun l => (l.1, [])))) := by
  induction layers with
  | nil => simp [loadLayers]
  | cons l t ih =>
    obtain ⟨name, feats⟩ := l
    constructor
    · rintro ⟨l', hl', hne⟩
      rcases List.mem_cons.mp hl' with rfl | hmem
      · rcases hfe : feats with _ | ⟨f, fs⟩
        · exact absurd hfe hne
        · subst hfe
          exact ⟨"TypeError: style is undefined",
            by simp [loadLayers, processLayer, processFeature]⟩
      · rcases hfe : feats with _ | ⟨f, fs⟩
        · obtain ⟨e, he⟩ := ih.1 ⟨l', hmem, hne⟩
          exact ⟨e, by simp [loadLayers, processLayer, he]⟩
        · exact ⟨"TypeError: style is undefined",
            by simp [loadLayers, processLayer, processFeature]⟩
    · intro hall
      have hl : feats = [] := hall (name, feats) (List.mem_cons_self _ _)
      subst hl
      have ht := ih.2 (fun l' hl' => hall l' (List.mem_cons_of_mem _ hl'))
      simp [loadLayers, processLayer, ht]

/-- C10 witness: a single layer holding one feature makes the null-styler
load throw, and an empty layer list loads fine. -/
theorem null_styler_throws_witness :
    ∃ e, loadLayers none "en"
      [("water", [⟨[("name", "x")], [[⟨0, 0⟩]]⟩])] = .error e :=
  (null_styler_throws "en" [("water", [⟨[("name", "x")], [[⟨0, 0⟩]]⟩])]).1
    (by decide)

/-! ## LabelBuffer (LabelPlacer): collision-avoiding text reservations -/

/-- An axis-aligned rectangle with rational coordinates (`margin / 2` produces
non-integer values). -/
structure Rect where
  minX : ℚ
  minY : ℚ
  maxX : ℚ
  maxY : ℚ
  deriving Repr, DecidableEq

/-- Rectangle intersection as rbush computes it (closed rectangles: touching
counts as intersecting). -/
def Intersects (a b : Rect) : Prop :=
  b.minX ≤ a.maxX ∧ b.minY ≤ a.maxY ∧ a.minX ≤ b.maxX ∧ a.minY ≤ b.maxY

instance (a b : Rect) : Decidable (Intersects a b) := by
  unfold Intersects; infer_instance

/-- A reservation stored in the tree: a rectangle plus the feature back-reference. -/
structure LBEntry where
  rect : Rect
  feature : Nat
  deriving Repr, DecidableEq

/-- Modelled from the spec: the SpatialIndex (rbush) at its interface —
`collides(rect)` is true iff some stored rectangle intersects the query;
the tree is represented by its list of entries. -/
def collides (tree : List LBEntry) (r : Rect) : Bool :=
  tree.any (fun e => decide (Intersects r e.rect))

/-- LabelBuffer._calculateArea (its margin parameter defaults to 0):
`{minX: x - margin, minY: y - margin/2, maxX: x + margin + stringWidth(text),
maxY: y + margin/2}`.  The display-width function is a parameter. -/
def calculateArea (sw : String → Nat) (text : String) (x y : Int) (margin : ℚ) : Rect :=
  { minX := x - margin, minY := y - margin / 2,
    maxX := x + margin + sw text, maxY := y + margin / 2 }

/-- The defaulting `margin = margin || this.margin` (0 is falsy; the field is 5). -/
def effMargin (m : ℚ) : ℚ := if m = 0 then 5 else m

/-- One placement request (arguments of one `writeIfPossible` call). -/
structure PlaceReq where
  text : String
  x : Int
  y : Int
  feature : Nat
  margin : ℚ
  deriving Repr, DecidableEq

/-- LabelBuffer._hasSpace: collision test against the UNPADDED area
(`this._calculateArea(text, x, y)` — no margin argument). -/
def hasSpace (sw : String → Nat) (tree : List LBEntry) (text : String)
    (x y : Int) : Bool :=
  !(collides tree (calculateArea sw text x y 0))

/-- LabelBuffer.writeIfPossible: project pixel coordinates to cell space
(`Math.floor(x/2)`, `Math.floor(y/4)`), test `_hasSpace`, and on success
insert the margin-PADDED area tagged with the feature. -/
def writeIfPossible (sw : String → Nat) (tree : List LBEntry) (req : PlaceReq) :
    Bool × List LBEntry :=
  let m := effMargin req.margin
  let px := Int.fdiv req.x 2
  let py := Int.fdiv req.y 4
  if hasSpace sw tree req.text px py then
    (true, { rect := calculateArea sw req.text px py m, feature := req.feature } :: tree)
  else
    (false, tree)

/-- The padded footprint a successful call inserts. -/
def paddedFootprint (sw : String → Nat) (req : PlaceReq) : Rect :=
  calculateArea sw req.text (Int.fdiv req.x 2) (Int.fdiv req.y 4) (effMargin req.margin)

/-- The unpadded footprint `_hasSpace` actually tests. -/
def unpaddedFootprint (sw : String → Nat) (req : PlaceReq) : Rect :=
  calculateArea sw req.text (Int.fdiv req.x 2) (Int.fdiv req.y 4) 0

/-- One request of a render pass: thread the tree and record successes. -/
def placeStep (sw : String → Nat) (acc : List LBEntry × List PlaceReq)
    (r : PlaceReq) : List LBEntry × List PlaceReq :=
  let w := writeIfPossible sw acc.1 r
  (w.2, if w.1 then acc.2 ++ [r] else acc.2)

/-- A whole pass from a cleared index: final tree and the successful requests
in order. -/
def runPlacer (sw : String → Nat) (reqs : List PlaceReq) :
    List LBEntry × List PlaceReq :=
  reqs.foldl (placeStep sw) ([], [])

/-- ASCII display width for concrete runs. -/
def swLen (s : String) : Nat := s.length

/-- First concrete placement: "a" at pixel (0,0), margin 5. -/
def reqA : PlaceReq := ⟨"a", 0, 0, 1, 5⟩

/-- Second concrete placement: "a" at pixel (20,0), margin 5. -/
def reqB : PlaceReq := ⟨"a", 20, 0, 2, 5⟩

/-- C3 counterexample: two calls after a clear both succeed — the second's
unpadded test rectangle misses the first's reservation — yet their padded
footprints overlap, so the claim that no two successful placements have
overlapping padded footprints is false on the code. -/
theorem label_overlap_counterexample :
    (writeIfPossible swLen [] reqA).1 = true ∧
    (writeIfPossible swLen (writeIfPossible swLen [] reqA).2 reqB).1 = true ∧
    Intersects (paddedFootprint swLen reqA) (paddedFootprint swLen reqB) := by
  have hf0 : Int.fdiv 0 2 = 0 := by decide
  have hf1 : Int.fdiv 0 4 = 0 := by decide
  have hf2 : Int.fdiv 20 2 = 10 := by decide
  have hm5 : effMargin 5 = 5 := by norm_num [effMargin]
  have hlen : swLen "a" = 1 := rfl
  have hq : ¬ Intersects (calculateArea swLen "a" 10 0 0) (calculateArea swLen "a" 0 0 5) := by
    rintro ⟨-, -, h3, -⟩
    simp only [calculateArea, hlen] at h3
    norm_num at h3
  have hw1 : writeIfPossible swLen [] reqA =
      (true, [⟨calculateArea swLen "a" 0 0 (effMargin 5), 1⟩]) := by
    simp [writeIfPossible, reqA, hasSpace, collides, hf0, hf1]
  have hw2 : (writeIfPossible swLen (writeIfPossible swLen [] reqA).2 reqB).1 = true := by
    rw [hw1]
    simp [writeIfPossible, reqB, hasSpace, collides, hf2, hf1, hm5, hq]
  refine ⟨by rw [hw1], hw2, ?_⟩
  simp only [paddedFootprint, reqA, reqB, hf0, hf1, hf2, hm5, calculateArea, hlen, Intersects]
  refine ⟨?_, ?_, ?_, ?_⟩ <;> norm_num

theorem intersects_symm (a b : Rect) (h : Intersects a b) : Intersects b a := by
  obtain ⟨h1, h2, h3, h4⟩ := h
  exact ⟨h3, h4, h1, h2⟩

theorem intersects_subset (q r r' : Rect)
    (hsub : r'.minX ≤ r.minX ∧ r.maxX ≤ r'.maxX ∧ r'.minY ≤ r.minY ∧ r.maxY ≤ r'.maxY)
    (h : Intersects q r) : Intersects q r' := by
  obtain ⟨h1, h2, h3, h4⟩ := h
  obtain ⟨s1, s2, s3, s4⟩ := hsub
  exact ⟨le_trans s1 h1, le_trans s3 h2, le_trans h3 s2, le_trans h4 s4⟩

theorem unpadded_subset_padded (sw : String → Nat) (r : PlaceReq)
    (h : 0 ≤ effMargin r.margin) :
    (paddedFootprint sw r).minX ≤ (unpaddedFootprint sw r).minX ∧
    (unpaddedFootprint sw r).maxX ≤ (paddedFootprint sw r).maxX ∧
    (paddedFootprint sw r).minY ≤ (unpaddedFootprint sw r).minY ∧
    (unpaddedFootprint sw r).maxY ≤ (paddedFootprint sw r).maxY := by
  simp only [paddedFootprint, unpaddedFootprint, calculateArea]
  refine ⟨by linarith, by linarith, by linarith, by linarith⟩

theorem runPlacer_invariant (sw : String → Nat) (reqs : List PlaceReq)
    (tree : List LBEntry) (succ : List PlaceReq)
    (htree : tree.map (fun e => e.rect) = (succ.map (paddedFootprint sw)).reverse)
    (hpair : succ.Pairwise
      (fun a b => ¬ Intersects (unpaddedFootprint sw b) (paddedFootprint sw a))) :
    (reqs.foldl (placeStep sw) (tree, succ)).2.Pairwise
      (fun a b => ¬ Intersects (unpaddedFootprint sw b) (paddedFootprint sw a)) ∧
    (reqs.foldl (placeStep sw) (tree, succ)).1.map (fun e => e.rect)
      = ((reqs.foldl (placeStep sw) (tree, succ)).2.map (paddedFootprint sw)).reverse ∧
    ∀ a ∈ (reqs.foldl (placeStep sw) (tree, succ)).2, a ∈ succ ∨ a ∈ reqs := by
  induction reqs generalizing tree succ with
  | nil =>
    refine ⟨hpair, htree, ?_⟩
    intro a ha
    exact Or.inl ha
  | cons r rest ih =>
    simp only [List.foldl_cons]
    by_cases hs : hasSpace sw tree r.text (Int.fdiv r.x 2) (Int.fdiv r.y 4) = true
    · have hstep : placeStep sw (tree, succ) r =
          (⟨paddedFootprint sw r, r.feature⟩ :: tree, succ ++ [r]) := by
        simp [placeStep, writeIfPossible, hs, paddedFootprint]
      rw [hstep]
      have hnocol : ∀ a ∈ succ, ¬ Intersects (unpaddedFootprint sw r) (paddedFootprint sw a) := by
        intro a ha hint
        have hcol : collides tree (calculateArea sw r.text (Int.fdiv r.x 2) (Int.fdiv r.y 4) 0) = false := by
          simpa [hasSpace] using hs
        simp only [collides, List.any_eq_false, decide_eq_true_eq] at hcol
        have hmem : paddedFootprint sw a ∈ tree.map (fun e => e.rect) := by
          rw [htree]
          exact List.mem_reverse.mpr (List.mem_map_of_mem (paddedFootprint sw) ha)
        obtain ⟨e, he, herect⟩ := List.mem_map.mp hmem
        exact hcol e he (by rw [herect]; exact hint)
      have htree' : (⟨paddedFootprint sw r, r.feature⟩ :: tree : List LBEntry).map (fun e => e.rect)
          = ((succ ++ [r]).map (paddedFootprint sw)).reverse := by
        simp [htree]
      have hpair' : (succ ++ [r]).Pairwise
          (fun a b => ¬ Intersects (unpaddedFootprint sw b) (paddedFootprint sw a)) := by
        rw [List.pairwise_append]
        refine ⟨hpair, List.pairwise_singleton _ _, ?_⟩
        intro a ha b hb
        rw [List.mem_singleton.mp hb]
        exact hnocol a ha
      obtain ⟨p1, p2, p3⟩ := ih _ _ htree' hpair'
      refine ⟨p1, p2, ?_⟩
      intro a ha
      rcases p3 a ha with hin | hin
      · rcases List.mem_append.mp hin with h | h
        · exact Or.inl h
        · exact Or.inr (List.mem_cons.mpr (Or.inl (List.mem_singleton.mp h)))
      · exact Or.inr (List.mem_cons.mpr (Or.inr hin))
    · have hstep : placeStep sw (tree, succ) r = (tree, succ) := by
        simp [placeStep, writeIfPossible, hs]
      rw [hstep]
      obtain ⟨p1, p2, p3⟩ := ih _ _ htree hpair
      refine ⟨p1, p2, ?_⟩
      intro a ha
      rcases p3 a ha with hin | hin
      · exact Or.inl hin
      · exact Or.inr (List.mem_cons.mpr (Or.inr hin))

/-- C3 (amended): the collision test uses the unpadded footprint while the
inserted reservation is the padded one, so (with nonnegative effective
margins) the successful placements of a pass from a cleared index have
pairwise non-overlapping UNPADDED footprints — overlapping padded footprints
are possible — and a call that returns false leaves the index unchanged. -/
theorem label_placement_disjoint (sw : String → Nat) (reqs : List PlaceReq)
    (hm : ∀ r ∈ reqs, 0 ≤ effMargin r.margin) :
    (runPlacer sw reqs).2.Pairwise
      (fun a b => ¬ Intersects (unpaddedFootprint sw a) (unpaddedFootprint sw b)) ∧
    ∀ tree r, (writeIfPossible sw tree r).1 = false → (writeIfPossible sw tree r).2 = tree := by
  constructor
  · obtain ⟨p1, _, p3⟩ := runPlacer_invariant sw reqs [] [] (by simp) (by simp)
    have hsub : ∀ a ∈ (runPlacer sw reqs).2, a ∈ reqs := by
      intro a ha
      rcases p3 a ha with h | h
      · cases h
      · exact h
    refine List.Pairwise.imp_of_mem ?_ p1
    intro a b ha hb hR hint
    have hmb : 0 ≤ effMargin a.margin := hm a (hsub a ha)
    exact hR (intersects_subset (unpaddedFootprint sw b) (unpaddedFootprint sw a)
      (paddedFootprint sw a) (unpadded_subset_padded sw a hmb) (intersects_symm _ _ hint))
  · intro tree r h
    by_cases hs : hasSpace sw tree r.text (Int.fdiv r.x 2) (Int.fdiv r.y 4) = true
    · simp [writeIfPossible, hs] at h
    · simp [writeIfPossible, hs]

/-- C3 amended-claim witness: the two concrete placements succeed with
margin 5 ≥ 0, their unpadded footprints do not overlap, and failing calls
never mutate the tree. -/
theorem label_placement_disjoint_witness :
    (runPlacer swLen [reqA, reqB]).2.Pairwise
      (fun a b => ¬ Intersects (unpaddedFootprint swLen a) (unpaddedFootprint swLen b)) ∧
    ∀ tree r, (writeIfPossible swLen tree r).1 = false →
      (writeIfPossible swLen tree r).2 = tree :=
  label_placement_disjoint swLen [reqA, reqB]
    (by norm_num [reqA, reqB, effMargin])

end Mapscii
